import Mathlib

/-!
Verification development for the schema-utils OpenRPC document pipeline
(src/validate-open-rpc-document.ts).

The TypeScript source manipulates JSON object graphs dynamically, so the
embedding works over an inductive `Json` type with JavaScript-style field
access, field assignment, and field deletion.  JavaScript `undefined` is a
first-class constructor (`Json.undef`) because the source branches on
`!== undefined` and optional chaining.  Code paths on which JavaScript
throws (`TypeError` on member access of `null`/`undefined`, `.push` /
`.forEach` of a non-function, strict-mode assignment to a property of a
primitive) are embedded as `Except` failures carrying a `JsError`.
-/

namespace SchemaUtils

/-- JSON values as the source manipulates them, with JavaScript `undefined`
as an explicit constructor.  Numbers are modelled as integers (no claim
touches fractional values). -/
inductive Json where
  | undef : Json
  | null : Json
  | bool (b : Bool) : Json
  | num (n : Int) : Json
  | str (s : String) : Json
  | arr (items : List Json) : Json
  | obj (fields : List (String × Json)) : Json

namespace Json

/-- First entry for a key in an object's field list; JavaScript yields
`undefined` for a missing property. -/
def lookupField : List (String × Json) → String → Json
  | [], _ => .undef
  | kv :: rest, key => if kv.1 = key then kv.2 else lookupField rest key

/-- Assignment `o[key] = v`: overwrite the first entry for `key`, or append
a fresh entry when the key is absent. -/
def setField : List (String × Json) → String → Json → List (String × Json)
  | [], key, v => [(key, v)]
  | kv :: rest, key, v => if kv.1 = key then (key, v) :: rest else kv :: setField rest key v

/-- `delete o[key]`: remove every entry for `key` (JavaScript objects hold a
key at most once, so on object values arising from JSON this is exactly the
removal of the one entry). -/
def delFields (l : List (String × Json)) (key : String) : List (String × Json) :=
  l.filter (fun kv => kv.1 != key)

/-- Property read `j[key]`.  On non-objects JavaScript yields `undefined`
for the properties the source reads (the throwing receivers `null` and
`undefined` are guarded separately by `getOn`). -/
def get : Json → String → Json
  | .obj fields, key => lookupField fields key
  | _, _ => Json.undef

/-- Property write `j[key] = v` on an object; a write the source performs on
a non-object receiver is modelled at its call site. -/
def set : Json → String → Json → Json
  | .obj fields, key, v => .obj (setField fields key v)
  | j, _, _ => j

/-- `delete j[key]`; on primitives the delete of a missing property is a
no-op in JavaScript. -/
def del : Json → String → Json
  | .obj fields, key => .obj (delFields fields key)
  | j, _ => j

/-- Receivers on which any property access throws `TypeError`. -/
def isUndefOrNull : Json → Bool
  | .undef => true
  | .null => true
  | _ => false

/-- Exactly JavaScript `undefined`. -/
def isUndef : Json → Bool
  | .undef => true
  | _ => false

end Json

mutual

/-- JavaScript `String(x)` on the JSON fragment, as used for computed
property keys and template strings (arrays join their elements with commas,
rendering `null`/`undefined` elements as the empty string; objects render
as the standard object tag). -/
def jsString : Json → String
  | .undef => "undefined"
  | .null => "null"
  | .bool true => "true"
  | .bool false => "false"
  | .num n => toString n
  | .str s => s
  | .arr items => String.intercalate "," (jsStringItems items)
  | .obj _ => "[object Object]"

/-- Element rendering inside `Array.prototype.join`. -/
def jsStringItems : List Json → List String
  | [] => []
  | .undef :: rest => "" :: jsStringItems rest
  | .null :: rest => "" :: jsStringItems rest
  | x :: rest => jsString x :: jsStringItems rest

end

/-- Errors thrown by the source's JavaScript: a plain `new Error(message)`
(the extension-configuration failure) or an engine-level `TypeError`
(member access / call on an unsuitable receiver).  `TypeError` messages are
descriptive placeholders; the source never inspects them. -/
inductive JsError where
  | errorWithMessage (message : String) : JsError
  | typeError (message : String) : JsError
deriving DecidableEq

/-- A violation reported by the external validation engine (ajv), reduced to
the fields the pipeline's contract names: the schema path, the instance
(data) path, and the human-readable message. -/
structure ErrorObject where
  instancePath : String
  schemaPath : String
  message : String
deriving DecidableEq

/-- One hexadecimal digit. -/
def hexDigit (n : Nat) : Char :=
  if n < 10 then Char.ofNat (48 + n) else Char.ofNat (87 + n % 16)

/-- `JSON.stringify` escaping of a single character inside a string literal. -/
def jsonEscapeChar (c : Char) : String :=
  if c = '"' then "\\\""
  else if c = '\\' then "\\\\"
  else if c = '\n' then "\\n"
  else if c = '\r' then "\\r"
  else if c = '\t' then "\\t"
  else if c = Char.ofNat 8 then "\\b"
  else if c = Char.ofNat 12 then "\\f"
  else if c.toNat < 32 then
    "\\u00" ++ String.mk [hexDigit (c.toNat / 16), hexDigit (c.toNat % 16)]
  else String.singleton c

/-- A `JSON.stringify` string literal. -/
def jsonQuote (s : String) : String :=
  "\"" ++ String.join (s.toList.map jsonEscapeChar) ++ "\""

/-- Rendering of one violation inside
`JSON.stringify(errors, undefined, "  ")` (two-space indentation, one level
down inside the array). -/
def stringifyOneError (e : ErrorObject) : String :=
  "  \x7b\n    \"instancePath\": " ++ jsonQuote e.instancePath
    ++ ",\n    \"schemaPath\": " ++ jsonQuote e.schemaPath
    ++ ",\n    \"message\": " ++ jsonQuote e.message
    ++ "\n  \x7d"

/-- `JSON.stringify(errors, undefined, "  ")` on the engine's violation
array. -/
def jsonStringifyErrors : List ErrorObject → String
  | [] => "[]"
  | es => "[\n" ++ String.intercalate ",\n" (es.map stringifyOneError) ++ "\n]"

/-- The error class of src lines 14-27.  The `name` field is the literal the
source assigns at line 15 (note: the source assigns the *dereferencing*
error's name to the validation error class). -/
structure OpenRPCDocumentValidationError where
  name : String
  message : String
deriving DecidableEq

/-- Constructor of `OpenRPCDocumentValidationError` (src lines 20-26): the
message joins a fixed two-line header with the serialized ajv error list. -/
def OpenRPCDocumentValidationError.ofErrors (errors : List ErrorObject) :
    OpenRPCDocumentValidationError :=
  ⟨"OpenRPCDocumentDereferencingError",
    String.intercalate "\n"
      ["Error validating OpenRPC Document against @open-rpc/meta-schema.",
       "The errors found are as follows:",
       jsonStringifyErrors errors]⟩

/-- The error class of src lines 186-194: `extends Error` without
reassigning `name` (so instances carry the inherited name "Error"), with
the message wrapping the underlying dereferencer failure's message. -/
structure OpenRPCDocumentDereferencingError where
  name : String
  message : String
deriving DecidableEq

/-- Constructor of `OpenRPCDocumentDereferencingError` (src lines 191-193),
applied to the message of the error caught from the dereferencing engine. -/
def OpenRPCDocumentDereferencingError.ofError (message : String) :
    OpenRPCDocumentDereferencingError :=
  ⟨"Error",
    "The json schema provided cannot be dereferenced. Received Error: \n " ++ message⟩

/-- Modelled from the spec: `getMetaSchemaWithExtensionSchema`
(src/get-meta-schema-with-extension.ts, imported at src line 3 but not
present under src/) produces the working copy of the extension-capable base
meta-schema.  Per spec section 3 the working copy is "produced fresh for
each validation so concurrent validations never share mutable schema
state"; a per-call fresh deep copy of an immutable base is a pure function
of the base value. -/
def getMetaSchemaWithExtensionSchema (base : Json) : Json := base

/-- Guarded property read: JavaScript member access throws `TypeError` when
the receiver is `null` or `undefined`. -/
def getOn (j : Json) (key : String) : Except JsError Json :=
  if j.isUndefOrNull then
    .error (.typeError "cannot read properties of null or undefined")
  else .ok (j.get key)

/-- Guarded property delete: `delete j[key]` throws `TypeError` when the
receiver is `null` or `undefined`, and is a no-op on other primitives. -/
def deleteOn (j : Json) (key : String) : Except JsError Json :=
  if j.isUndefOrNull then
    .error (.typeError "cannot convert null or undefined to object")
  else .ok (j.del key)

/-- One iteration of the inner `extension['restricted'].forEach` (src lines
76-82): check the restricted target exists in `defs` (src 77-79, throwing
the configuration `Error` otherwise), push the extension name onto the
target's `required` array when `required === true` (src 80; `.push` on a
missing or non-array `required` throws `TypeError`), then install the
extension's schema into the target's `properties` (src 81; a missing or
primitive `properties` makes the strict-mode assignment throw `TypeError`,
while a string-keyed assignment on an array receiver is invisible to the
JSON content). -/
def applyOneRestricted (defs : Json) (propKeyJ schemaJ requiredJ : Json)
    (metaSchemaKey : String) : Except JsError Json :=
  if defs.isUndefOrNull then
    .error (.typeError "cannot read properties of null or undefined")
  else
    let target := defs.get metaSchemaKey
    if target.isUndef then
      .error (.errorWithMessage
        ("Invalid meta schema key: " ++ metaSchemaKey ++ " for openrpc extension "
          ++ jsString propKeyJ))
    else
      let step1 : Except JsError Json :=
        match requiredJ with
        | .bool true =>
          match target.get "required" with
          | .arr xs => .ok (defs.set metaSchemaKey (target.set "required" (.arr (xs ++ [propKeyJ]))))
          | _ => .error (.typeError "push is not a function")
        | _ => .ok defs
      step1.bind fun defs1 =>
        let target1 := defs1.get metaSchemaKey
        match target1.get "properties" with
        | .obj props =>
          .ok (defs1.set metaSchemaKey
            (target1.set "properties" (.obj (Json.setField props (jsString propKeyJ) schemaJ))))
        | .arr _ => .ok defs1
        | _ => .error (.typeError "cannot set properties of a primitive value")

/-- One iteration of the outer `document["x-extensions"].forEach` (src lines
72-83): read the extension's `name` and `schema`, then fold the inner loop
over its `restricted` array (`.forEach` on a missing or non-array
`restricted` throws `TypeError`).  `extension['required']` is read inside
the inner loop in the source; the extension is an established non-null
value there, so the read is hoisted as a pure projection. -/
def applyExtension (defs : Json) (ext : Json) : Except JsError Json :=
  if ext.isUndefOrNull then
    .error (.typeError "cannot read properties of null or undefined")
  else
    let propKeyJ := ext.get "name"
    let schemaJ := ext.get "schema"
    match ext.get "restricted" with
    | .arr keys =>
      let requiredJ := ext.get "required"
      keys.foldlM (fun d k => applyOneRestricted d propKeyJ schemaJ requiredJ (jsString k)) defs
    | _ => .error (.typeError "restricted forEach is not a function")

/-- `applyExtensionsToMetaSchema` (src lines 68-86).  The source mutates the
working copy through the alias `defs = extendedMetaSchema.definitions`; the
embedding threads the `definitions` value through the fold and reinstalls
it (when `definitions` was absent and never touched, nothing is installed,
matching the unmutated working copy). -/
def applyExtensionsToMetaSchema (base document : Json) : Except JsError Json :=
  let extendedMetaSchema := getMetaSchemaWithExtensionSchema base
  if extendedMetaSchema.isUndefOrNull then
    .error (.typeError "cannot read properties of null or undefined")
  else
    let defs := extendedMetaSchema.get "definitions"
    if document.isUndefOrNull then
      .error (.typeError "cannot read properties of null or undefined")
    else
      match document.get "x-extensions" with
      | .undef => .ok extendedMetaSchema
      | .arr exts =>
        (exts.foldlM applyExtension defs).bind fun defs2 =>
          .ok (if defs2.isUndef then extendedMetaSchema
               else extendedMetaSchema.set "definitions" defs2)
      | _ => .error (.typeError "x-extensions forEach is not a function")

/-- `cleanMetaSchemaForValidation` (src lines 88-95): delete `$id` and
`$schema` from `metaSchema.definitions.JSONSchema`, then `$schema` and
`$id` from the root, in source order.  Member access on a missing
`definitions` or `JSONSchema` throws `TypeError`.  The same four statements
appear inline in `validateOpenRPCDocument` (src lines 55-58). -/
def cleanMetaSchemaForValidation (metaSch : Json) : Except JsError Json :=
  (getOn metaSch "definitions").bind fun defs =>
  (getOn defs "JSONSchema").bind fun js0 =>
  (deleteOn js0 "$id").bind fun js1 =>
  (deleteOn js1 "$schema").bind fun js2 =>
  let defs2 := defs.set "JSONSchema" js2
  let m2 := metaSch.set "definitions" defs2
  (deleteOn m2 "$schema").bind fun m3 =>
  deleteOn m3 "$id"

/-- Result type of `validateOpenRPCDocument`: the success sentinel `true`
or the returned (not thrown) validation error. -/
inductive ValidateOut where
  | sentinelTrue : ValidateOut
  | validationError (e : OpenRPCDocumentValidationError) : ValidateOut
deriving DecidableEq

/-- `validateOpenRPCDocument` (src lines 49-66): build the extension-
augmented working copy, sanitize it in place (src lines 55-58 repeat the
body of `cleanMetaSchemaForValidation` verbatim), run the external engine
(`ajv.validate` then `ajv.errors`, which is null exactly when the reported
violation list is empty), and either return the sentinel `true` or the
constructed `OpenRPCDocumentValidationError`.  Errors thrown while
augmenting or sanitizing propagate out of the call. -/
def validateOpenRPCDocument (engine : Json → Json → List ErrorObject)
    (base document : Json) : Except JsError ValidateOut :=
  (applyExtensionsToMetaSchema base document).bind fun metaSchemaCopy =>
  (cleanMetaSchemaForValidation metaSchemaCopy).bind fun m =>
    let errs := engine m document
    if errs.isEmpty then .ok .sentinelTrue
    else .ok (.validationError (OpenRPCDocumentValidationError.ofErrors errs))

/-- The external collaborators `parseOpenRPCDocument` consumes (src lines
164-169 imports): `JSON.parse` (returning none where it would throw),
`is-url`, the two acquisition wrappers from get-open-rpc-document, the
`fs-extra` path check, the `json-schema-ref-parser` dereferencer (its
failure carries the caught error's message), the validation engine, and
the base meta-schema underlying `validateOpenRPCDocument`. -/
structure Env where
  jsonParse : String → Option Json
  isUrl : String → Bool
  fetchUrlSchemaFile : String → Except String Json
  readSchemaFromFile : String → Except String Json
  pathExists : String → Bool
  dereference : Json → Except String Json
  engine : Json → Json → List ErrorObject
  baseMetaSchema : Json

/-- Replace only the dereferencing collaborator of an environment. -/
def Env.setDereference (e : Env) (d : Json → Except String Json) : Env :=
  Env.mk e.jsonParse e.isUrl e.fetchUrlSchemaFile e.readSchemaFromFile
    e.pathExists d e.engine e.baseMetaSchema

/-- `isJson` (src lines 179-181): `JSON.parse` succeeds. -/
def isJson (env : Env) (s : String) : Bool :=
  (env.jsonParse s).isSome

/-- The argument of `parseOpenRPCDocument`: `string | types.OpenRPC`. -/
inductive SchemaArg where
  | docArg (d : Json) : SchemaArg
  | strArg (s : String) : SchemaArg

/-- A failure of the end-to-end pipeline, distinguishable by kind: an error
thrown while augmenting or sanitizing the meta-schema, an acquisition
failure propagated as-is from the I/O collaborators, the thrown
`OpenRPCDocumentValidationError`, or the thrown
`OpenRPCDocumentDereferencingError`. -/
inductive ParseFailure where
  | thrown (e : JsError) : ParseFailure
  | acquisition (message : String) : ParseFailure
  | validation (e : OpenRPCDocumentValidationError) : ParseFailure
  | dereferencing (e : OpenRPCDocumentDereferencingError) : ParseFailure
deriving DecidableEq

/-- Acquisition failures from the excluded collaborators propagate
unmodified (spec section 4.4); the embedding tags them with their kind. -/
def asAcquisition : Except String Json → Except ParseFailure Json
  | .ok v => .ok v
  | .error m => .error (.acquisition m)

/-- The acquisition block of `parseOpenRPCDocument` (src lines 233-244):
a non-string argument is the document; a string parsing as JSON is parsed
(`isJson` and the subsequent `JSON.parse` are the same pure parse); a URL
string goes to `fetchUrlSchemaFile`; otherwise the string is a file path
for `readSchemaFromFile` (the `pathExists` result is bound at src line 242
and never used). -/
def acquireSchema (env : Env) (schema : SchemaArg) : Except ParseFailure Json :=
  match schema with
  | .docArg d => .ok d
  | .strArg s =>
    match env.jsonParse s with
    | some parsed => .ok parsed
    | none =>
      if env.isUrl s then asAcquisition (env.fetchUrlSchemaFile s)
      else
        let _isCorrectPath := env.pathExists s
        asAcquisition (env.readSchemaFromFile s)

/-- The validate-then-dereference tail of `parseOpenRPCDocument` (src lines
246-256): on the sentinel `true` call the dereferencer, wrapping its
failure into `OpenRPCDocumentDereferencingError`; otherwise throw the
returned validation error; an error thrown by validation itself
propagates. -/
def afterAcquire (env : Env) (parsedSchema : Json) : Except ParseFailure Json :=
  match validateOpenRPCDocument env.engine env.baseMetaSchema parsedSchema with
  | .error e => .error (.thrown e)
  | .ok .sentinelTrue =>
    match env.dereference parsedSchema with
    | .ok d => .ok d
    | .error msg => .error (.dereferencing (OpenRPCDocumentDereferencingError.ofError msg))
  | .ok (.validationError ve) => .error (.validation ve)

/-- `parseOpenRPCDocument` (src lines 230-257): acquire, validate,
dereference. -/
def parseOpenRPCDocument (env : Env) (schema : SchemaArg) : Except ParseFailure Json :=
  (acquireSchema env schema).bind (afterAcquire env)

/-- `parseOpenRPCDocument` with the argument omitted: the declared default
parameter value is the conventional local path "./openrpc.json" (src line
231). -/
def parseOpenRPCDocumentNoArg (env : Env) : Except ParseFailure Json :=
  parseOpenRPCDocument env (.strArg "./openrpc.json")

/-- Modelled from the spec: the only state shared between validation calls
is the base meta-schema held by get-meta-schema-with-extension (not under
src/); per spec section 3 each call gets a fresh working copy, so a call
reads the shared state and leaves it unchanged. -/
structure ValidatorState where
  baseMetaSchema : Json

/-- Modelled from the spec: one `validateOpenRPCDocument` call against the
shared state, returning the call's result together with the state visible
to subsequent calls. -/
def validateCall (engine : Json → Json → List ErrorObject)
    (st : ValidatorState) (document : Json) :
    Except JsError ValidateOut × ValidatorState :=
  (validateOpenRPCDocument engine st.baseMetaSchema document, st)

namespace Json

theorem lookupField_setField_self (l : List (String × Json)) (k : String) (v : Json) :
    lookupField (setField l k v) k = v := by
  induction l with
  | nil => simp [setField, lookupField]
  | cons kv rest ih =>
    by_cases h : kv.1 = k <;> simp [setField, lookupField, h, ih]

theorem lookupField_setField_ne (l : List (String × Json)) {k k' : String}
    (h : k' ≠ k) (v : Json) :
    lookupField (setField l k v) k' = lookupField l k' := by
  induction l with
  | nil => simp [setField, lookupField, Ne.symm h]
  | cons kv rest ih =>
    by_cases hk : kv.1 = k
    · subst hk
      simp [setField, lookupField, Ne.symm h]
    · simp only [setField, if_neg hk]
      by_cases hk' : kv.1 = k' <;> simp [lookupField, hk', ih]

theorem setField_setField_self (l : List (String × Json)) (k : String) (v w : Json) :
    setField (setField l k v) k w = setField l k w := by
  induction l with
  | nil => simp [setField]
  | cons kv rest ih =>
    by_cases h : kv.1 = k <;> simp [setField, h, ih]

theorem setField_lookupField_self (l : List (String × Json)) (k : String)
    (h : lookupField l k ≠ .undef) :
    setField l k (lookupField l k) = l := by
  induction l with
  | nil => simp [lookupField] at h
  | cons kv rest ih =>
    by_cases hk : kv.1 = k
    · simp only [lookupField, if_pos hk, setField]
      rw [← hk]
    · simp only [lookupField, if_neg hk] at h ⊢
      simp [setField, hk, ih h]

theorem lookupField_delFields_self (l : List (String × Json)) (k : String) :
    lookupField (delFields l k) k = .undef := by
  induction l with
  | nil => simp [delFields, lookupField]
  | cons kv rest ih =>
    by_cases h : kv.1 = k <;>
      simp_all [delFields, lookupField, List.filter_cons, bne_iff_ne, h]

theorem lookupField_delFields_ne (l : List (String × Json)) {k k' : String}
    (h : k' ≠ k) :
    lookupField (delFields l k) k' = lookupField l k' := by
  induction l with
  | nil => simp [delFields, lookupField]
  | cons kv rest ih =>
    by_cases hk : kv.1 = k
    · subst hk
      simp_all [delFields, lookupField, List.filter_cons, Ne.symm h]
    · by_cases hk' : kv.1 = k' <;>
        simp_all [delFields, lookupField, List.filter_cons, bne_iff_ne, hk]

theorem delFields_delFields_self (l : List (String × Json)) (k : String) :
    delFields (delFields l k) k = delFields l k := by
  simp only [delFields, List.filter_filter]
  exact List.filter_congr fun kv _ => by by_cases h : kv.1 = k <;> simp [h]

theorem delFields_comm (l : List (String × Json)) (a b : String) :
    delFields (delFields l a) b = delFields (delFields l b) a := by
  simp only [delFields, List.filter_filter]
  exact List.filter_congr fun kv _ => Bool.and_comm _ _

theorem containsField_setField (l : List (String × Json)) (k : String) (v : Json)
    (h : v ≠ .undef) : lookupField (setField l k v) k ≠ .undef := by
  rw [lookupField_setField_self]; exact h

theorem get_obj (f : List (String × Json)) (k : String) :
    (Json.obj f).get k = lookupField f k := rfl

theorem get_set_self (f : List (String × Json)) (k : String) (v : Json) :
    ((Json.obj f).set k v).get k = v := by
  simp [Json.set, Json.get, lookupField_setField_self]

theorem get_set_ne {k k' : String} (h : k' ≠ k) (j v : Json) :
    (j.set k v).get k' = j.get k' := by
  cases j <;> simp [Json.set, Json.get, lookupField_setField_ne _ h]

theorem set_set_self (j : Json) (k : String) (v w : Json) :
    (j.set k v).set k w = j.set k w := by
  cases j <;> simp [Json.set, setField_setField_self]

theorem set_get_self (j : Json) (k : String) (h : j.get k ≠ .undef) :
    j.set k (j.get k) = j := by
  cases j <;> simp_all [Json.set, Json.get, setField_lookupField_self]

theorem get_del_self (j : Json) (k : String) : (j.del k).get k = .undef := by
  cases j <;> simp [Json.del, Json.get, lookupField_delFields_self]

theorem get_del_ne {k k' : String} (h : k' ≠ k) (j : Json) :
    (j.del k).get k' = j.get k' := by
  cases j <;> simp [Json.del, Json.get, lookupField_delFields_ne _ h]

theorem del_del_self (j : Json) (k : String) : (j.del k).del k = j.del k := by
  cases j <;> simp [Json.del, delFields_delFields_self]

theorem del_comm (j : Json) (a b : String) : (j.del a).del b = (j.del b).del a := by
  cases j <;> simp [Json.del, delFields_comm]

theorem isUndefOrNull_set (j : Json) (k : String) (v : Json) :
    (j.set k v).isUndefOrNull = j.isUndefOrNull := by
  cases j <;> rfl

theorem isUndefOrNull_del (j : Json) (k : String) :
    (j.del k).isUndefOrNull = j.isUndefOrNull := by
  cases j <;> rfl

theorem get_ne_undef_obj {j : Json} {k : String} (h : j.get k ≠ .undef) :
    ∃ f, j = .obj f := by
  cases j <;> simp_all [Json.get]

theorem isUndefOrNull_obj (f : List (String × Json)) :
    (Json.obj f).isUndefOrNull = false := rfl

theorem set_obj (f : List (String × Json)) (k : String) (v : Json) :
    (Json.obj f).set k v = .obj (setField f k v) := rfl

theorem del_obj (f : List (String × Json)) (k : String) :
    (Json.obj f).del k = .obj (delFields f k) := rfl

end Json

theorem foldlM_singleton {ε α β : Type} (f : β → α → Except ε β) (b : β) (a : α) :
    [a].foldlM f b = f b a := by
  simp [List.foldlM]

theorem except_bind_eq {ε α β : Type} (x : Except ε α) (f : α → Except ε β) :
    x >>= f = x.bind f := rfl

theorem except_bind_ok {ε α β : Type} {a : Except ε α} {f : α → Except ε β} {b : β}
    (h : a.bind f = .ok b) : ∃ v, a = .ok v ∧ f v = .ok b := by
  cases a with
  | error e => simp [Except.bind] at h
  | ok v => exact ⟨v, rfl, h⟩

theorem getOn_ok {j : Json} {k : String} {v : Json} (h : getOn j k = .ok v) :
    j.isUndefOrNull = false ∧ v = j.get k := by
  by_cases hj : j.isUndefOrNull <;> simp_all [getOn]

theorem deleteOn_ok {j : Json} {k : String} {v : Json} (h : deleteOn j k = .ok v) :
    j.isUndefOrNull = false ∧ v = j.del k := by
  by_cases hj : j.isUndefOrNull <;> simp_all [deleteOn]

theorem deleteOn_not_null {j : Json} {k : String} (h : j.isUndefOrNull = false) :
    deleteOn j k = .ok (j.del k) := by
  simp [deleteOn, h]

theorem isUndefOrNull_false_ne_undef {j : Json} (h : j.isUndefOrNull = false) :
    j ≠ .undef := by
  cases j <;> simp_all [Json.isUndefOrNull]

/-- Inversion of a successful sanitization: the input is an object whose
`definitions` member is an object carrying a non-null `JSONSchema` member,
and the output is the four deletions applied to it. -/
theorem clean_ok_shape {s t : Json} (h : cleanMetaSchemaForValidation s = .ok t) :
    ∃ sF dF jsv, s = .obj sF
      ∧ Json.lookupField sF "definitions" = .obj dF
      ∧ Json.lookupField dF "JSONSchema" = jsv
      ∧ jsv.isUndefOrNull = false
      ∧ t = (((Json.obj sF).set "definitions"
              ((Json.obj dF).set "JSONSchema" ((jsv.del "$id").del "$schema"))).del
                "$schema").del "$id" := by
  unfold cleanMetaSchemaForValidation at h
  obtain ⟨defs, h1, h⟩ := except_bind_ok h
  obtain ⟨js0, h2, h⟩ := except_bind_ok h
  obtain ⟨js1, h3, h⟩ := except_bind_ok h
  obtain ⟨js2, h4, h⟩ := except_bind_ok h
  dsimp only at h
  obtain ⟨m3, h5, h6⟩ := except_bind_ok h
  obtain ⟨hs, hdefs⟩ := getOn_ok h1
  obtain ⟨hdnn, hjs0⟩ := getOn_ok h2
  obtain ⟨hjnn, hjs1⟩ := deleteOn_ok h3
  obtain ⟨hjnn2, hjs2⟩ := deleteOn_ok h4
  obtain ⟨hm2, hm3⟩ := deleteOn_ok h5
  obtain ⟨hm3n, ht⟩ := deleteOn_ok h6
  have hjs0ne : defs.get "JSONSchema" ≠ .undef := by
    rw [← hjs0]; exact isUndefOrNull_false_ne_undef hjnn
  obtain ⟨dF, hdF⟩ := Json.get_ne_undef_obj hjs0ne
  have hdefsne : s.get "definitions" ≠ .undef := by
    rw [← hdefs, hdF]; simp
  obtain ⟨sF, hsF⟩ := Json.get_ne_undef_obj hdefsne
  refine ⟨sF, dF, js0, hsF, ?_, ?_, hjnn, ?_⟩
  · rw [← Json.get_obj, ← hsF, ← hdefs, hdF]
  · rw [← Json.get_obj, ← hdF, ← hjs0]
  · rw [ht, hm3, hjs2, hjs1, ← hdF, ← hsF]

/-- Claim C7: meta-schema sanitization is idempotent — a successful
`cleanMetaSchemaForValidation` is a fixed point of itself — and the
sanitized output carries no `$id`/`$schema` at the root nor on the nested
`definitions.JSONSchema` sub-definition. -/
theorem cleanMetaSchemaForValidation_idempotent {s t : Json}
    (h : cleanMetaSchemaForValidation s = .ok t) :
    cleanMetaSchemaForValidation t = .ok t
    ∧ t.get "$id" = .undef
    ∧ t.get "$schema" = .undef
    ∧ ((t.get "definitions").get "JSONSchema").get "$id" = .undef
    ∧ ((t.get "definitions").get "JSONSchema").get "$schema" = .undef := by
  obtain ⟨sF, dF, jsv, rfl, hdefs, hjs, hjnn, rfl⟩ := clean_ok_shape h
  set js2 : Json := (jsv.del "$id").del "$schema" with hjs2def
  set defs2 : Json := (Json.obj dF).set "JSONSchema" js2 with hdefs2def
  set X : Json := (Json.obj sF).set "definitions" defs2 with hXdef
  set t : Json := (X.del "$schema").del "$id" with htdef
  have hXobj : X = Json.obj (Json.setField sF "definitions" defs2) := rfl
  have htnn : t.isUndefOrNull = false := by
    rw [htdef, Json.isUndefOrNull_del, Json.isUndefOrNull_del, hXobj,
      Json.isUndefOrNull_obj]
  have htdefs : t.get "definitions" = defs2 := by
    rw [htdef, Json.get_del_ne (by decide), Json.get_del_ne (by decide), hXdef,
      Json.get_set_self]
  have hdefs2nn : defs2.isUndefOrNull = false := by
    rw [hdefs2def]; rfl
  have hdefs2js : defs2.get "JSONSchema" = js2 := by
    rw [hdefs2def, Json.get_set_self]
  have hjs2nn : js2.isUndefOrNull = false := by
    rw [hjs2def, Json.isUndefOrNull_del, Json.isUndefOrNull_del, hjnn]
  have hjs2id : js2.del "$id" = js2 := by
    rw [hjs2def, Json.del_comm (jsv.del "$id") "$schema" "$id", Json.del_del_self]
  have hjs2schema : js2.del "$schema" = js2 := by
    rw [hjs2def, Json.del_del_self]
  have hdefs2set : defs2.set "JSONSchema" js2 = defs2 := by
    rw [hdefs2def, Json.set_set_self]
  have htset : t.set "definitions" defs2 = t := by
    have := Json.set_get_self t "definitions" (by rw [htdefs, hdefs2def]; simp [Json.set])
    rwa [htdefs] at this
  have htschema : t.del "$schema" = t := by
    rw [htdef, Json.del_comm (X.del "$schema") "$id" "$schema", Json.del_del_self]
  have htid : t.del "$id" = t := by
    rw [htdef, Json.del_del_self]
  refine ⟨?_, ?_, ?_, ?_, ?_⟩
  · unfold cleanMetaSchemaForValidation
    rw [getOn, if_neg (by rw [htnn]; simp), htdefs]
    rw [Except.bind]
    rw [getOn, if_neg (by rw [hdefs2nn]; simp), hdefs2js]
    rw [Except.bind]
    rw [deleteOn, if_neg (by rw [hjs2nn]; simp), hjs2id]
    rw [Except.bind]
    rw [deleteOn, if_neg (by rw [hjs2nn]; simp), hjs2schema]
    rw [Except.bind]
    dsimp only
    rw [hdefs2set, htset]
    rw [deleteOn, if_neg (by rw [htnn]; simp), htschema]
    rw [Except.bind]
    rw [deleteOn, if_neg (by rw [htnn]; simp), htid]
  · rw [htdef, Json.get_del_self]
  · rw [htdef, Json.get_del_ne (by decide), Json.get_del_self]
  · rw [htdefs, hdefs2js, hjs2def, Json.get_del_ne (by decide), Json.get_del_self]
  · rw [htdefs, hdefs2js, hjs2def, Json.get_del_self]

/-- Field list of a small representative base meta-schema: root identity
fields, the nested `JSONSchema` sub-definition with its own identity
fields, and a `MethodObject` definition with `properties` and `required`. -/
def sampleMetaSchemaFields : List (String × Json) := [
  ("$id", .str "meta-id"),
  ("$schema", .str "meta-schema"),
  ("definitions", .obj [
     ("JSONSchema", .obj [("$id", .str "js-id"), ("$schema", .str "js-schema"),
       ("type", .str "object")]),
     ("MethodObject", .obj [("properties", .obj [("name", .obj [])]),
       ("required", .arr [.str "name"])])])]

/-- The sample base meta-schema as a JSON value. -/
def sampleMetaSchema : Json := .obj sampleMetaSchemaFields

/-- `sampleMetaSchema` after sanitization. -/
def sampleMetaSchemaCleaned : Json := .obj [
  ("definitions", .obj [
     ("JSONSchema", .obj [("type", .str "object")]),
     ("MethodObject", .obj [("properties", .obj [("name", .obj [])]),
       ("required", .arr [.str "name"])])])]

/-- Claim C1: an Extension Declaration with name "x-foo",
restricted ["MethodObject"], required true makes
`applyExtensionsToMetaSchema` produce an augmented schema whose
`definitions.MethodObject.properties["x-foo"]` is the declared fragment and
whose `definitions.MethodObject.required` is the old `required` sequence
with "x-foo" appended, without deduplication. -/
theorem applyExtensionsToMetaSchema_injects
    (bF dF moF pF eF : List (String × Json)) (reqs : List Json)
    (frag ext document base : Json)
    (hbase : base = .obj bF)
    (hdefs : Json.lookupField bF "definitions" = .obj dF)
    (hmo : Json.lookupField dF "MethodObject" = .obj moF)
    (hprops : Json.lookupField moF "properties" = .obj pF)
    (hreq : Json.lookupField moF "required" = .arr reqs)
    (hdoc : document.get "x-extensions" = .arr [ext])
    (hext : ext = .obj eF)
    (hname : Json.lookupField eF "name" = .str "x-foo")
    (hschema : Json.lookupField eF "schema" = frag)
    (hrestricted : Json.lookupField eF "restricted" = .arr [.str "MethodObject"])
    (hrequired : Json.lookupField eF "required" = .bool true) :
    ∃ out, applyExtensionsToMetaSchema base document = .ok out
      ∧ (((out.get "definitions").get "MethodObject").get "properties").get "x-foo" = frag
      ∧ ((out.get "definitions").get "MethodObject").get "required"
          = .arr (reqs ++ [.str "x-foo"]) := by
  subst hbase hext
  obtain ⟨docF, rfl⟩ := Json.get_ne_undef_obj (k := "x-extensions") (by rw [hdoc]; simp)
  rw [Json.get_obj] at hdoc
  refine ⟨Json.obj (Json.setField bF "definitions" (Json.obj
      (Json.setField (Json.setField dF "MethodObject"
          (Json.obj (Json.setField moF "required" (Json.arr (reqs ++ [Json.str "x-foo"])))))
        "MethodObject"
        (Json.obj (Json.setField
          (Json.setField moF "required" (Json.arr (reqs ++ [Json.str "x-foo"])))
          "properties" (Json.obj (Json.setField pF "x-foo" frag))))))), ?_, ?_, ?_⟩
  · simp only [applyExtensionsToMetaSchema, getMetaSchemaWithExtensionSchema,
      Json.isUndefOrNull, Bool.false_eq_true, if_false, Json.get_obj, hdoc, hdefs,
      foldlM_singleton, applyExtension, hname, hschema, hrestricted, hrequired,
      applyOneRestricted, jsString, hmo, Json.isUndef, hreq, Except.bind,
      Json.set_obj, Json.lookupField_setField_self, hprops,
      Json.lookupField_setField_ne moF (show "properties" ≠ "required" by decide)]
  · simp only [Json.get_obj, Json.lookupField_setField_self]
  · simp only [Json.get_obj, Json.lookupField_setField_self,
      Json.lookupField_setField_ne _ (show "required" ≠ "properties" by decide)]

/-- A sample declared extension schema fragment. -/
def sampleFrag : Json := .obj [("type", .str "string")]

/-- A document declaring one extension: name "x-foo", required, restricted
to `MethodObject`. -/
def sampleExtensionDoc : Json := .obj [("x-extensions", .arr [.obj [
  ("name", .str "x-foo"),
  ("schema", sampleFrag),
  ("required", .bool true),
  ("restricted", .arr [.str "MethodObject"])]])]

/-- Witness for claim C1 at the concrete sample meta-schema and extension
document. -/
theorem applyExtensionsToMetaSchema_injects_witness :
    ∃ out, applyExtensionsToMetaSchema sampleMetaSchema sampleExtensionDoc = .ok out
      ∧ (((out.get "definitions").get "MethodObject").get "properties").get "x-foo"
          = sampleFrag
      ∧ ((out.get "definitions").get "MethodObject").get "required"
          = .arr ([.str "name"] ++ [.str "x-foo"]) :=
  applyExtensionsToMetaSchema_injects _ _ _ _ _ _ _ _ _ _
    rfl rfl rfl rfl rfl rfl rfl rfl rfl rfl rfl

/-- Claim C2: a restricted entry naming a definition absent from the
meta-schema's `definitions` makes `applyExtensionsToMetaSchema` throw a
plain `Error` whose message names both the missing definition and the
extension's property name; `validateOpenRPCDocument` propagates that thrown
error unchanged for every validation engine, so the engine is never
consulted and no `OpenRPCDocumentValidationError` is returned. -/
theorem applyExtensionsToMetaSchema_missing_definition
    (bF : List (String × Json)) (document : Json) (dF eF : List (String × Json))
    (restTail exts' : List Json) (ext : Json) (name missingKey : String)
    (hdefs : Json.lookupField bF "definitions" = .obj dF)
    (hdoc : document.get "x-extensions" = .arr (ext :: exts'))
    (hext : ext = .obj eF)
    (hname : Json.lookupField eF "name" = .str name)
    (hrestricted : Json.lookupField eF "restricted" = .arr (.str missingKey :: restTail))
    (hmissing : Json.lookupField dF missingKey = .undef) :
    applyExtensionsToMetaSchema (Json.obj bF) document
        = .error (.errorWithMessage
            ("Invalid meta schema key: " ++ missingKey ++ " for openrpc extension " ++ name))
      ∧ ∀ engine, validateOpenRPCDocument engine (Json.obj bF) document
          = .error (.errorWithMessage
              ("Invalid meta schema key: " ++ missingKey ++ " for openrpc extension " ++ name)) := by
  subst hext
  obtain ⟨docF, rfl⟩ := Json.get_ne_undef_obj (k := "x-extensions") (by rw [hdoc]; simp)
  rw [Json.get_obj] at hdoc
  have h1 : applyExtensionsToMetaSchema (Json.obj bF) (Json.obj docF)
      = .error (.errorWithMessage
          ("Invalid meta schema key: " ++ missingKey ++ " for openrpc extension " ++ name)) := by
    simp only [applyExtensionsToMetaSchema, getMetaSchemaWithExtensionSchema,
      Json.isUndefOrNull, Bool.false_eq_true, if_false, Json.get_obj, hdoc, hdefs,
      List.foldlM_cons, applyExtension, hname, hrestricted,
      applyOneRestricted, jsString, hmissing, Json.isUndef, if_true,
      except_bind_eq, Except.bind]
  refine ⟨h1, fun engine => ?_⟩
  simp only [validateOpenRPCDocument, h1, Except.bind]

/-- A document whose only extension restricts to the absent definition
"NoSuchDef". -/
def sampleBadRestrictedDoc : Json := .obj [("x-extensions", .arr [.obj [
  ("name", .str "x-foo"),
  ("schema", sampleFrag),
  ("required", .bool true),
  ("restricted", .arr [.str "NoSuchDef"])]])]

/-- Witness for claim C2: a sample document whose only extension restricts
to the absent definition "NoSuchDef". -/
theorem applyExtensionsToMetaSchema_missing_definition_witness :
    applyExtensionsToMetaSchema sampleMetaSchema sampleBadRestrictedDoc
      = .error (.errorWithMessage
          ("Invalid meta schema key: " ++ "NoSuchDef" ++ " for openrpc extension " ++ "x-foo")) :=
  (applyExtensionsToMetaSchema_missing_definition sampleMetaSchemaFields
    sampleBadRestrictedDoc _ _ _ _ _ _ _ rfl rfl rfl rfl rfl rfl).1

/-- Claim C10: for a declaration with required=true whose restricted entry
names an existing definition that lacks a `required` member, the `.push`
fails with an unstructured `TypeError` rather than the structured
missing-definition `Error`: only the definition's existence is checked. -/
theorem applyExtensionsToMetaSchema_push_typeError
    (bF : List (String × Json)) (document : Json) (dF tF eF : List (String × Json))
    (exts' restTail : List Json) (ext : Json) (name key : String)
    (hdefs : Json.lookupField bF "definitions" = .obj dF)
    (hdoc : document.get "x-extensions" = .arr (ext :: exts'))
    (hext : ext = .obj eF)
    (hname : Json.lookupField eF "name" = .str name)
    (hrequired : Json.lookupField eF "required" = .bool true)
    (hrestricted : Json.lookupField eF "restricted" = .arr (.str key :: restTail))
    (htarget : Json.lookupField dF key = .obj tF)
    (hnoreq : Json.lookupField tF "required" = .undef) :
    applyExtensionsToMetaSchema (Json.obj bF) document
        = .error (.typeError "push is not a function")
      ∧ ∀ k pk, applyExtensionsToMetaSchema (Json.obj bF) document
          ≠ .error (.errorWithMessage
              ("Invalid meta schema key: " ++ k ++ " for openrpc extension " ++ pk)) := by
  subst hext
  obtain ⟨docF, rfl⟩ := Json.get_ne_undef_obj (k := "x-extensions") (by rw [hdoc]; simp)
  rw [Json.get_obj] at hdoc
  have h1 : applyExtensionsToMetaSchema (Json.obj bF) (Json.obj docF)
      = .error (.typeError "push is not a function") := by
    simp only [applyExtensionsToMetaSchema, getMetaSchemaWithExtensionSchema,
      Json.isUndefOrNull, Bool.false_eq_true, if_false, Json.get_obj, hdoc, hdefs,
      List.foldlM_cons, applyExtension, hname, hrequired, hrestricted,
      applyOneRestricted, jsString, htarget, hnoreq, Json.isUndef, if_true,
      except_bind_eq, Except.bind]
  refine ⟨h1, fun k pk => ?_⟩
  rw [h1]
  simp

/-- Field list of a base meta-schema whose `ContactObject` definition
exists but carries no `required` array. -/
def sampleNoRequiredFields : List (String × Json) := [("definitions", .obj [
  ("JSONSchema", .obj []),
  ("ContactObject", .obj [("properties", .obj [])])])]

/-- A document whose only extension restricts to `ContactObject` with
required=true. -/
def sampleContactExtensionDoc : Json := .obj [("x-extensions", .arr [.obj [
  ("name", .str "x-foo"),
  ("schema", sampleFrag),
  ("required", .bool true),
  ("restricted", .arr [.str "ContactObject"])]])]

/-- Witness for claim C10: `ContactObject` exists but carries no `required`
array. -/
theorem applyExtensionsToMetaSchema_push_typeError_witness :
    applyExtensionsToMetaSchema (Json.obj sampleNoRequiredFields) sampleContactExtensionDoc
      = .error (.typeError "push is not a function") :=
  (applyExtensionsToMetaSchema_push_typeError sampleNoRequiredFields
    sampleContactExtensionDoc _ _ _ _ _ _ _ _
    rfl rfl rfl rfl rfl rfl rfl rfl).1

/-- Witness for claim C7 at the concrete sample meta-schema. -/
theorem cleanMetaSchemaForValidation_idempotent_witness :
    cleanMetaSchemaForValidation sampleMetaSchema = .ok sampleMetaSchemaCleaned
    ∧ cleanMetaSchemaForValidation sampleMetaSchemaCleaned = .ok sampleMetaSchemaCleaned :=
  ⟨rfl, (cleanMetaSchemaForValidation_idempotent (s := sampleMetaSchema) rfl).1⟩

/-- Claim C4: once the augmented meta-schema is built and sanitized,
`validateOpenRPCDocument` returns the sentinel `true` exactly when the
engine reports no violations; otherwise it returns an
`OpenRPCDocumentValidationError` whose message is the fixed header joined
with the serialization of the engine's full ordered violation list (each
violation rendered with its instance path, schema path, and message). -/
theorem validateOpenRPCDocument_engine_result
    (engine : Json → Json → List ErrorObject) (base document mc m : Json)
    (ha : applyExtensionsToMetaSchema base document = .ok mc)
    (hc : cleanMetaSchemaForValidation mc = .ok m) :
    (validateOpenRPCDocument engine base document = .ok .sentinelTrue
      ↔ engine m document = [])
    ∧ (engine m document ≠ [] →
        validateOpenRPCDocument engine base document
          = .ok (.validationError (OpenRPCDocumentValidationError.ofErrors (engine m document))))
    ∧ (∀ es, (OpenRPCDocumentValidationError.ofErrors es).message
        = String.intercalate "\n"
            ["Error validating OpenRPC Document against @open-rpc/meta-schema.",
             "The errors found are as follows:", jsonStringifyErrors es]) := by
  unfold validateOpenRPCDocument
  rw [ha]
  simp only [Except.bind]
  rw [hc]
  simp only [Except.bind]
  refine ⟨?_, ?_, fun es => rfl⟩
  · by_cases he : engine m document = [] <;> simp [he]
  · intro he
    simp [he]

/-- A sample violation as the engine would report it. -/
def sampleErr : ErrorObject := ⟨"", "#/required", "should have required property info"⟩

/-- An engine reporting one violation for every input. -/
def engineOneError : Json → Json → List ErrorObject := fun _ _ => [sampleErr]

/-- An engine reporting no violations for any input. -/
def engineNoError : Json → Json → List ErrorObject := fun _ _ => []

/-- Witness for claim C4 at the sample meta-schema, the empty document, and
the one-violation engine. -/
theorem validateOpenRPCDocument_engine_result_witness :
    validateOpenRPCDocument engineOneError sampleMetaSchema (.obj [])
      = .ok (.validationError (OpenRPCDocumentValidationError.ofErrors [sampleErr])) :=
  (validateOpenRPCDocument_engine_result engineOneError sampleMetaSchema (.obj [])
      sampleMetaSchema sampleMetaSchemaCleaned rfl rfl).2.1 (by simp [engineOneError])

/-- Claim C9 (evidence of the source's misnamed error kind): the error
constructed for a document that fails validation carries the name
"OpenRPCDocumentDereferencingError" (src line 15), not a name identifying
it as a validation error, while the dereferencing error class itself
carries the inherited name "Error". -/
theorem validationError_name_misidentifies (errs : List ErrorObject) (msg : String) :
    (OpenRPCDocumentValidationError.ofErrors errs).name
        = "OpenRPCDocumentDereferencingError"
    ∧ (OpenRPCDocumentValidationError.ofErrors errs).name
        ≠ "OpenRPCDocumentValidationError"
    ∧ (OpenRPCDocumentDereferencingError.ofError msg).name = "Error" :=
  ⟨rfl, by
    have h : (OpenRPCDocumentValidationError.ofErrors errs).name
        = "OpenRPCDocumentDereferencingError" := rfl
    rw [h]; decide, rfl⟩

/-- Claim C8: under the spec-modelled fresh-working-copy semantics, one
validation call leaves the shared validator state unchanged, the result of
a call is unaffected by any earlier call, and each call is a pure function
of the engine, the shared base meta-schema, and its own document. -/
theorem validateOpenRPCDocument_no_side_effects
    (engine : Json → Json → List ErrorObject) (st : ValidatorState) (d1 d2 : Json) :
    (validateCall engine st d1).2 = st
    ∧ (validateCall engine (validateCall engine st d1).2 d2).1
        = (validateCall engine st d2).1
    ∧ validateCall engine st d2
        = (validateOpenRPCDocument engine st.baseMetaSchema d2, st) :=
  ⟨rfl, rfl, rfl⟩

theorem acquireSchema_setDereference (env : Env) (d : Json → Except String Json)
    (arg : SchemaArg) :
    acquireSchema (env.setDereference d) arg = acquireSchema env arg := by
  cases arg <;> rfl

/-- Claim C3: when the acquired document fails meta-schema validation,
`parseOpenRPCDocument` rejects with exactly that validation error, and the
dereferencing collaborator is never consulted: the outcome is identical
under every dereferencer. -/
theorem parseOpenRPCDocument_validation_gate
    (env : Env) (arg : SchemaArg) (document : Json)
    (ve : OpenRPCDocumentValidationError)
    (hacq : acquireSchema env arg = .ok document)
    (hval : validateOpenRPCDocument env.engine env.baseMetaSchema document
      = .ok (.validationError ve)) :
    parseOpenRPCDocument env arg = .error (.validation ve)
    ∧ ∀ d, parseOpenRPCDocument (env.setDereference d) arg
        = .error (.validation ve) := by
  have h1 : parseOpenRPCDocument env arg = .error (.validation ve) := by
    unfold parseOpenRPCDocument
    rw [hacq]
    simp only [Except.bind, afterAcquire, hval]
  refine ⟨h1, fun d => ?_⟩
  unfold parseOpenRPCDocument
  rw [acquireSchema_setDereference, hacq]
  have he : (env.setDereference d).engine = env.engine := rfl
  have hb : (env.setDereference d).baseMetaSchema = env.baseMetaSchema := rfl
  simp only [Except.bind, afterAcquire, he, hb, hval]

/-- An environment whose engine reports one violation on every input, over
the sample base meta-schema, with an always-succeeding dereferencer. -/
def sampleEnvInvalid : Env :=
  Env.mk (fun _ => none) (fun _ => false) (fun _ => .error "network down")
    (fun _ => .error "no such file") (fun _ => false) (fun v => .ok v)
    engineOneError sampleMetaSchema

/-- Witness for claim C3: the empty document fails validation and the
rejection carries the validation error. -/
theorem parseOpenRPCDocument_validation_gate_witness :
    parseOpenRPCDocument sampleEnvInvalid (.docArg (.obj []))
      = .error (.validation (OpenRPCDocumentValidationError.ofErrors [sampleErr])) :=
  (parseOpenRPCDocument_validation_gate sampleEnvInvalid (.docArg (.obj []))
    (.obj []) _ rfl rfl).1

/-- Claim C6: on the validated path, a dereferencer failure makes
`parseOpenRPCDocument` reject with an `OpenRPCDocumentDereferencingError`
whose message wraps the underlying engine error's message, and a
dereferencer success resolves with the fully dereferenced document. -/
theorem parseOpenRPCDocument_dereference_wrap
    (env : Env) (arg : SchemaArg) (document resolved : Json) (msg : String)
    (hacq : acquireSchema env arg = .ok document)
    (hval : validateOpenRPCDocument env.engine env.baseMetaSchema document
      = .ok .sentinelTrue) :
    (env.dereference document = .error msg →
      parseOpenRPCDocument env arg
        = .error (.dereferencing (OpenRPCDocumentDereferencingError.ofError msg)))
    ∧ (env.dereference document = .ok resolved →
      parseOpenRPCDocument env arg = .ok resolved)
    ∧ (OpenRPCDocumentDereferencingError.ofError msg).message
        = "The json schema provided cannot be dereferenced. Received Error: \n " ++ msg := by
  refine ⟨fun hd => ?_, fun hd => ?_, rfl⟩ <;>
  · unfold parseOpenRPCDocument
    rw [hacq]
    simp only [Except.bind, afterAcquire, hval, hd]

/-- An environment whose engine accepts everything and whose dereferencer
always fails. -/
def sampleEnvDerefFail : Env :=
  Env.mk (fun _ => none) (fun _ => false) (fun _ => .error "network down")
    (fun _ => .error "no such file") (fun _ => false) (fun _ => .error "bad pointer")
    engineNoError sampleMetaSchema

/-- Witness for claim C6: a failing dereferencer's message is wrapped. -/
theorem parseOpenRPCDocument_dereference_wrap_witness :
    parseOpenRPCDocument sampleEnvDerefFail (.docArg (.obj []))
      = .error (.dereferencing (OpenRPCDocumentDereferencingError.ofError "bad pointer")) :=
  (parseOpenRPCDocument_dereference_wrap sampleEnvDerefFail (.docArg (.obj []))
    (.obj []) (.obj []) "bad pointer" rfl rfl).1 rfl

/-- Claim C5: acquisition dispatch precedence of `parseOpenRPCDocument` —
a non-string argument is used directly as the document; a string that
parses as JSON is parsed; a string recognized as a URL is delegated to the
URL collaborator; any other string is treated as a file path for the file
collaborator; the omitted argument defaults to the local path
"./openrpc.json"; and `parseOpenRPCDocument` is exactly this acquisition
followed by the validate-and-dereference tail. -/
theorem parseOpenRPCDocument_acquisition_dispatch
    (env : Env) (d parsed : Json) (s1 s2 s3 : String) (arg : SchemaArg)
    (h1 : env.jsonParse s1 = some parsed)
    (h2 : env.jsonParse s2 = none) (h2u : env.isUrl s2 = true)
    (h3 : env.jsonParse s3 = none) (h3u : env.isUrl s3 = false) :
    acquireSchema env (.docArg d) = .ok d
    ∧ acquireSchema env (.strArg s1) = .ok parsed
    ∧ acquireSchema env (.strArg s2) = asAcquisition (env.fetchUrlSchemaFile s2)
    ∧ acquireSchema env (.strArg s3) = asAcquisition (env.readSchemaFromFile s3)
    ∧ parseOpenRPCDocumentNoArg env = parseOpenRPCDocument env (.strArg "./openrpc.json")
    ∧ parseOpenRPCDocument env arg = (acquireSchema env arg).bind (afterAcquire env) := by
  refine ⟨rfl, ?_, ?_, ?_, rfl, rfl⟩
  · simp [acquireSchema, h1]
  · simp [acquireSchema, h2, h2u]
  · simp [acquireSchema, h3, h3u]

/-- An environment that recognizes the string "json-text" as JSON text and
the string "http-url" as a URL. -/
def sampleEnvDispatch : Env :=
  Env.mk (fun s => if s = "json-text" then some (.obj []) else none)
    (fun s => s == "http-url")
    (fun _ => .error "network down")
    (fun _ => .error "no such file")
    (fun _ => false) (fun v => .ok v) engineNoError sampleMetaSchema

/-- Witness for claim C5 at concrete references of each of the four
shapes. -/
theorem parseOpenRPCDocument_acquisition_dispatch_witness :
    acquireSchema sampleEnvDispatch (.docArg (.num 1)) = .ok (.num 1)
    ∧ acquireSchema sampleEnvDispatch (.strArg "json-text") = .ok (.obj [])
    ∧ acquireSchema sampleEnvDispatch (.strArg "http-url")
        = asAcquisition (sampleEnvDispatch.fetchUrlSchemaFile "http-url")
    ∧ acquireSchema sampleEnvDispatch (.strArg "a-path")
        = asAcquisition (sampleEnvDispatch.readSchemaFromFile "a-path")
    ∧ parseOpenRPCDocumentNoArg sampleEnvDispatch
        = parseOpenRPCDocument sampleEnvDispatch (.strArg "./openrpc.json") :=
  have h := parseOpenRPCDocument_acquisition_dispatch sampleEnvDispatch (.num 1)
    (.obj []) "json-text" "http-url" "a-path" (.docArg (.num 1)) rfl rfl rfl rfl rfl
  ⟨h.1, h.2.1, h.2.2.1, h.2.2.2.1, h.2.2.2.2.1⟩

end SchemaUtils
